import Mathlib

/-!
Verification of the session/patch-synchronization engine and the
stream-multiplexed RPC clients of the orchestrator.

The definitions below are a shallow embedding of the Python sources:
`apps/orchestrator/a2ui.py` (patch engine, session hub),
`apps/orchestrator/main.py` (the `/events` publisher loop),
`apps/orchestrator/mcp_client.py` (SSE parsing and response correlation),
`apps/orchestrator/a2a_client.py` (synchronous RPC envelope unwrapping).

Python dictionaries are modelled as insertion-ordered association lists
with unique keys (assignment updates in place or appends at the end),
Python `None` as `Json.null`, and a raised exception as an explicit
error value.
-/

namespace A2AI

/-- JSON values, the payloads moved around by the orchestrator. -/
inductive Json where
  | null
  | bool (b : Bool)
  | num (n : Int)
  | str (s : String)
  | arr (elems : List Json)
  | obj (fields : List (String × Json))

/-- A Python `dict` as an insertion-ordered association list. -/
abbrev Dict (α : Type) := List (String × α)

/-- `d.get(key)`: first value stored under `key`, if any. -/
def dictGet? {α : Type} : Dict α → String → Option α
  | [], _ => none
  | (k, v) :: rest, key => if k = key then some v else dictGet? rest key

/-- `d[key] = v`: update the entry in place when the key exists, else append. -/
def dictSet {α : Type} : Dict α → String → α → Dict α
  | [], key, v => [(key, v)]
  | (k, w) :: rest, key, v =>
    if k = key then (key, v) :: rest else (k, w) :: dictSet rest key v

/-- `isinstance(x, dict)`. -/
def Json.isObj : Json → Bool
  | .obj _ => true
  | _ => false

/-- Auxiliary accumulator for `pySplit` (splits a character list on a separator). -/
def splitAux (sep : Char) : List Char → List Char → List String
  | [], acc => [String.mk acc.reverse]
  | c :: cs, acc =>
    if c = sep then String.mk acc.reverse :: splitAux sep cs []
    else splitAux sep cs (c :: acc)

/-- Python `s.split(sep)` for a one-character separator. -/
def pySplit (s : String) (sep : Char) : List String :=
  splitAux sep s.data []

/-- Python `path.startswith("/")`. -/
def startsWithSlash (path : String) : Bool :=
  match path.data with
  | '/' :: _ => true
  | _ => false

/-- `[p for p in path.split("/") if p]`: the nonempty pointer segments. -/
def pathParts (path : String) : List String :=
  (pySplit path '/').filter (fun s => !(s == ""))

/-- A patch operation as read by `apply_patches` via `p.get("op")`,
`p.get("path")` and `p.get("value")`; an absent key yields `Json.null`
(Python `None`), which behaves identically downstream. -/
structure Patch where
  op : Json
  path : Json
  value : Json

/-- `op in ("add", "replace")`: only these operations are handled. -/
def isOpKnown : Json → Bool
  | .str s => s == "add" || s == "replace"
  | _ => false

/-- The value of `cur[seg]` after
`if seg not in cur or not isinstance(cur[seg], dict): cur[seg] = {}`:
the existing child when it is a mapping, a fresh empty mapping otherwise. -/
def childDict (m : Dict Json) (seg : String) : Dict Json :=
  match dictGet? m seg with
  | some (Json.obj c) => c
  | _ => []

/-- The traversal-and-set core of `_ensure_path` followed by the
`parent[last] = value` write of `apply_patches`, written functionally:
descend the intermediate segments, replacing a missing or non-mapping
child with a fresh empty mapping (`childDict`), and set `last` in the
final parent (skipping the write when that parent is not a mapping, as
the `isinstance(parent, dict)` guard does).  Encountering a non-mapping
while a segment is still to be traversed raises
`ValueError("Cannot traverse non-dict at segment ...")`; this can only
happen at the entry point, since every ensured child is a mapping. -/
def ensureSetJ (path : String) (last : String) (v : Json) :
    List String → Json → Except String Json
  | [], cur =>
    match cur with
    | .obj m => .ok (.obj (dictSet m last v))
    | _ => .ok cur
  | seg :: rest, cur =>
    match cur with
    | .obj m =>
      match ensureSetJ path last v rest (Json.obj (childDict m seg)) with
      | .ok c2 => .ok (.obj (dictSet m seg c2))
      | .error e => .error e
    | _ =>
      .error ("Cannot traverse non-dict at segment '" ++ seg ++
        "' for path '" ++ path ++ "'")

/-- One iteration of the `apply_patches` loop: skip unknown operations and
non-string paths, raise when the pointer does not start with `/`, replace
the whole document when the pointer has no segments (only when the value
is a mapping), and otherwise traverse-and-set. -/
def applyOne (model : Json) (p : Patch) : Except String Json :=
  if !(isOpKnown p.op) then .ok model
  else
    match p.path with
    | Json.str path =>
      if !(startsWithSlash path) then
        .error ("JSON pointer must start with '/': " ++ path)
      else
        let parts := pathParts path
        match parts.getLast? with
        | none =>
          match p.value with
          | Json.obj v => .ok (Json.obj v)
          | _ => .ok model
        | some last => ensureSetJ path last p.value parts.dropLast model
    | _ => .ok model

/-- `apply_patches(model, patches)`: fold the patches over the document.
The result pairs the document as mutated so far with the message of the
raised exception, if one aborted the batch (`none` = returned normally).
A raise leaves the mutations of the earlier patches in place and skips
the remaining patches, as in-place mutation plus exception propagation
does in the source. -/
def apply_patches (model : Json) : List Patch → Json × Option String
  | [] => (model, none)
  | p :: ps =>
    match applyOne model p with
    | .ok m2 => apply_patches m2 ps
    | .error e => (model, some e)

/-- Outbound events built by `surface_open` / `data_model_update` and the
`session/created` frame of the `/events` handler (a tagged union keyed by
`kind` in the source). -/
inductive Event where
  | sessionCreated (sessionId : String)
  | surfaceOpen (surfaceId : String) (title : String) (dataModel : Json)
  | dataModelUpdate (surfaceId : String) (patches : List Patch)

/-- `SessionState`: identifier, outbound queue (FIFO: `put` appends,
`get` pops the head) and the per-surface document map. -/
structure SessionState where
  session_id : String
  queue : List Event
  models : Dict Json

/-- `get_model`: return the surface document, inserting a fresh empty
mapping first when the surface is absent; the returned state carries the
possibly-extended map. -/
def SessionState.get_model (s : SessionState) (surfaceId : String) :
    Json × SessionState :=
  match dictGet? s.models surfaceId with
  | some m => (m, s)
  | none =>
    (Json.obj [], { s with models := dictSet s.models surfaceId (Json.obj []) })

/-- `SessionHub`: the registry map from session id to session state. -/
structure SessionHub where
  sessions : Dict SessionState

/-- `SessionHub.get`. -/
def SessionHub.get (hub : SessionHub) (sid : String) : Option SessionState :=
  dictGet? hub.sessions sid

/-- `SessionHub.drop`: `self._sessions.pop(sid, None)`. -/
def SessionHub.drop (hub : SessionHub) (sid : String) : SessionHub :=
  { sessions := hub.sessions.eraseP (fun kv => kv.1 == sid) }

/-- `SessionHub.push`: best-effort enqueue; a missing session is a no-op. -/
def SessionHub.push (hub : SessionHub) (sid : String) (msg : Event) : SessionHub :=
  match hub.get sid with
  | none => hub
  | some s =>
    { sessions := dictSet hub.sessions sid { s with queue := s.queue ++ [msg] } }

/-- `SessionHub.push_update_and_apply`: look the session up, apply the
patches to the surface document in place, then enqueue one
`dataModelUpdate` event carrying the same patch list.  When
`apply_patches` raises, the partially-mutated document stays stored, no
event is enqueued, and the exception propagates (the `Option String`). -/
def SessionHub.push_update_and_apply (hub : SessionHub) (sid : String)
    (surfaceId : String) (patches : List Patch) : SessionHub × Option String :=
  match hub.get sid with
  | none => (hub, none)
  | some s =>
    let ms := s.get_model surfaceId
    match apply_patches ms.1 patches with
    | (m2, none) =>
      let s2 := { ms.2 with
        models := dictSet ms.2.models surfaceId m2,
        queue := ms.2.queue ++ [Event.dataModelUpdate surfaceId patches] }
      ({ sessions := dictSet hub.sessions sid s2 }, none)
    | (m2, some e) =>
      let s2 := { ms.2 with models := dictSet ms.2.models surfaceId m2 }
      ({ sessions := dictSet hub.sessions sid s2 }, some e)

/-- The drain loop of the `/events` handler in `main.py`.  The handler's
generator closes over the session object created for this stream; each
iteration first asks `request.is_disconnected()` (the `Bool` list is that
oracle, one entry per iteration; an exhausted list models external
cancellation) and breaks when it answers `true`; otherwise it waits up to
one second on the session queue, looping on a timeout (empty queue) and
emitting the dequeued event otherwise.  The hub is threaded through
unchanged because the loop performs no registry operation — in
particular, breaking on disconnect does not call `SessionHub.drop`. -/
def events_publisher (hub : SessionHub) :
    SessionState → List Bool → SessionHub × SessionState × List Event
  | s, [] => (hub, s, [])
  | s, disc :: rest =>
    if disc then (hub, s, [])
    else
      match s.queue with
      | [] => events_publisher hub s rest
      | e :: q =>
        let r := events_publisher hub { s with queue := q } rest
        (r.1, r.2.1, e :: r.2.2)

/-- Python whitespace class used by `str.strip` / `str.lstrip`. -/
def pyIsSpace (c : Char) : Bool :=
  c == ' ' || c == '\t' || c == '\n' || c == '\r' || c == '\x0b' || c == '\x0c'

/-- Python `s.lstrip()`. -/
def pyLstrip (s : String) : String :=
  String.mk (s.data.dropWhile pyIsSpace)

/-- Python `s.strip()`. -/
def pyStrip (s : String) : String :=
  String.mk (((s.data.dropWhile pyIsSpace).reverse.dropWhile pyIsSpace).reverse)

/-- `List.isPrefixOf` on characters, deciding Python `s.startswith(pre)`. -/
def charsPrefix : List Char → List Char → Bool
  | [], _ => true
  | _ :: _, [] => false
  | p :: ps, c :: cs => p == c && charsPrefix ps cs

/-- Python `line.startswith(pre)`. -/
def pyStartsWith (line pre : String) : Bool :=
  charsPrefix pre.data line.data

/-- `line.split(":", 1)[1]`: everything after the first colon (the callers
guard on a prefix that contains one). -/
def afterColonAux : List Char → List Char
  | [] => []
  | c :: cs => if c = ':' then cs else afterColonAux cs

/-- String version of `afterColonAux`. -/
def afterColon (s : String) : String :=
  String.mk (afterColonAux s.data)

/-- `"\n".join(dataLines)`. -/
def joinNL : List String → String
  | [] => ""
  | [s] => s
  | s :: rest => s ++ "\n" ++ joinNL rest

/-- Dispatch step of `_parse_sse_events`: an event is yielded only when at
least one `data:` line was collected. -/
def dispatchPending (event : String) (dataLines : List String) :
    List (String × String) :=
  match dataLines with
  | [] => []
  | _ => [(event, joinNL dataLines)]

/-- Loop of `_parse_sse_events` over the decoded lines: a blank line
dispatches the pending event and resets the state to (`"message"`, no
data); `event:` lines set the event name (stripped); `data:` lines append
(left-stripped); anything else is ignored; the stream end flushes the
pending event. -/
def parseSSEAux : String → List String → List String → List (String × String)
  | event, dataLines, [] => dispatchPending event dataLines
  | event, dataLines, line :: rest =>
    if line == "" then
      dispatchPending event dataLines ++ parseSSEAux "message" [] rest
    else if pyStartsWith line "event:" then
      parseSSEAux (pyStrip (afterColon line)) dataLines rest
    else if pyStartsWith line "data:" then
      parseSSEAux event (dataLines ++ [pyLstrip (afterColon line)]) rest
    else
      parseSSEAux event dataLines rest

/-- `_parse_sse_events(lines)` as a function from the finite line list to
the `(event, data)` frames it yields. -/
def parse_sse_events (lines : List String) : List (String × String) :=
  parseSSEAux "message" [] lines

/-- How `call_tool` ends: a returned `result` field, a raised
`RuntimeError(obj["error"])`, a raised `RuntimeError` with a literal
message, or the `AttributeError` from calling `.get` on a decoded
payload that is not a mapping. -/
inductive CallOutcome where
  | result (r : Json)
  | rpcError (e : Json)
  | raised (msg : String)
  | attributeError

/-- `obj.get("id") != call.id` negated: the decoded payload's `id` field
equals the call's identifier (a Python string compares equal only to that
same string). -/
def idMatches (fields : Dict Json) (callId : String) : Bool :=
  match dictGet? fields "id" with
  | some (Json.str s) => s == callId
  | _ => false

/-- `wait_for_response` of `MCPClient.call_tool` over the finite frame
list the stream delivers, parameterized by the `json.loads` decoder
(`none` models a `json.JSONDecodeError`, which is skipped).  Non-`message`
events and frames with a non-matching identifier are skipped; a matching
frame with a non-null `error` field raises; otherwise the `result` field
(Python `None` when absent) is returned; exhausting the stream raises
`RuntimeError("SSE stream ended without response")`. -/
def wait_for_response (decode : String → Option Json) (callId : String) :
    List (String × String) → CallOutcome
  | [] => .raised "SSE stream ended without response"
  | (ev, d) :: rest =>
    if !(ev == "message") then wait_for_response decode callId rest
    else
      match decode d with
      | none => wait_for_response decode callId rest
      | some (Json.obj fields) =>
        if !(idMatches fields callId) then wait_for_response decode callId rest
        else
          match dictGet? fields "error" with
          | some Json.null => .result ((dictGet? fields "result").getD Json.null)
          | none => .result ((dictGet? fields "result").getD Json.null)
          | some e => .rpcError e
      | some _ => .attributeError

/-- Python truthiness of a JSON value (`bool(x)`). -/
def pyTruthy : Json → Bool
  | .null => false
  | .bool b => b
  | .num n => !(n == 0)
  | .str s => !(s == "")
  | .arr xs => !xs.isEmpty
  | .obj fs => !fs.isEmpty

/-- How `A2AClient.message_send` ends once the response body is decoded:
a returned payload, a raised `RuntimeError(f"A2A error: ...")`, or the
`AttributeError` from `.get` on a truthy non-mapping `result`. -/
inductive A2AOutcome where
  | ok (data : Json)
  | a2aError (e : Json)
  | attributeError

/-- The unwrapping tail of `A2AClient.message_send` on the decoded
response body: raise when an `error` key is present (whatever its value),
else return `(data.get("result") or {}).get("data") or {}`. -/
def message_send_unwrap (body : Dict Json) : A2AOutcome :=
  match dictGet? body "error" with
  | some e => .a2aError e
  | none =>
    let r0 := (dictGet? body "result").getD Json.null
    let r1 := if pyTruthy r0 then r0 else Json.obj []
    match r1 with
    | Json.obj rf =>
      let d0 := (dictGet? rf "data").getD Json.null
      .ok (if pyTruthy d0 then d0 else Json.obj [])
    | _ => .attributeError

/-- The fully nested singleton document `{s₁: {s₂: ... {last: v}}}`. -/
def nestSingleton (inter : List String) (last : String) (v : Json) : Json :=
  inter.foldr (fun seg acc => Json.obj [(seg, acc)]) (Json.obj [(last, v)])

/-- Looking a key up right after setting it yields the stored value. -/
theorem dictGet?_dictSet_self {α : Type} (m : Dict α) (k : String) (v : α) :
    dictGet? (dictSet m k v) k = some v := by
  induction m with
  | nil => simp [dictSet, dictGet?]
  | cons kv rest ih =>
    obtain ⟨k2, w⟩ := kv
    by_cases h : k2 = k
    · simp [dictSet, h, dictGet?]
    · simp [dictSet, h, dictGet?, ih]

/-- Setting the same key to the same value twice equals setting it once. -/
theorem dictSet_idem {α : Type} (m : Dict α) (k : String) (v : α) :
    dictSet (dictSet m k v) k v = dictSet m k v := by
  induction m with
  | nil => simp [dictSet]
  | cons kv rest ih =>
    obtain ⟨k2, w⟩ := kv
    by_cases h : k2 = k
    · simp [dictSet, h]
    · simp [dictSet, h, ih]

/-- On a mapping document the traversal never raises and the result is
again a mapping: the non-mapping branch of `_ensure_path` is unreachable
because every ensured child is a mapping. -/
theorem ensureSetJ_obj_ok (path last : String) (v : Json) :
    ∀ (inter : List String) (m : Dict Json),
      ∃ m2, ensureSetJ path last v inter (Json.obj m) = .ok (Json.obj m2) := by
  intro inter
  induction inter with
  | nil => exact fun m => ⟨dictSet m last v, rfl⟩
  | cons seg rest ih =>
    intro m
    obtain ⟨c2, hc2⟩ := ih (childDict m seg)
    exact ⟨dictSet m seg (Json.obj c2), by simp [ensureSetJ, hc2]⟩

/-- Traversal from the empty document builds exactly the nested chain of
singleton mappings ending in the final write. -/
theorem ensureSetJ_empty_nest (path last : String) (v : Json) :
    ∀ inter : List String,
      ensureSetJ path last v inter (Json.obj []) = .ok (nestSingleton inter last v) := by
  intro inter
  induction inter with
  | nil => rfl
  | cons seg rest ih =>
    simp [ensureSetJ, childDict, dictGet?, nestSingleton, ih, dictSet]

/-- Traverse-and-set is idempotent: re-running it on its own successful
result changes nothing. -/
theorem ensureSetJ_idem (path last : String) (v : Json) :
    ∀ (inter : List String) (cur cur2 : Json),
      ensureSetJ path last v inter cur = .ok cur2 →
      ensureSetJ path last v inter cur2 = .ok cur2 := by
  intro inter
  induction inter with
  | nil =>
    intro cur cur2 h
    cases cur with
    | obj m =>
      simp only [ensureSetJ] at h
      cases h
      simp [ensureSetJ, dictSet_idem]
    | null => cases h; exact rfl
    | bool b => cases h; exact rfl
    | num n => cases h; exact rfl
    | str s => cases h; exact rfl
    | arr xs => cases h; exact rfl
  | cons seg rest ih =>
    intro cur cur2 h
    cases cur with
    | obj m =>
      simp only [ensureSetJ] at h
      cases hrec : ensureSetJ path last v rest (Json.obj (childDict m seg)) with
      | error e => rw [hrec] at h; cases h
      | ok c2 =>
        rw [hrec] at h
        cases h
        obtain ⟨c2f, hform⟩ := ensureSetJ_obj_ok path last v rest (childDict m seg)
        rw [hrec] at hform
        cases hform
        have hchild : childDict (dictSet m seg (Json.obj c2f)) seg = c2f := by
          simp [childDict, dictGet?_dictSet_self]
        have hih : ensureSetJ path last v rest (Json.obj c2f) = .ok (Json.obj c2f) :=
          ih (Json.obj (childDict m seg)) (Json.obj c2f) hrec
        simp [ensureSetJ, hchild, hih, dictSet_idem]
    | null => simp [ensureSetJ] at h
    | bool b => simp [ensureSetJ] at h
    | num n => simp [ensureSetJ] at h
    | str s => simp [ensureSetJ] at h
    | arr xs => simp [ensureSetJ] at h

/-- A handled patch whose pointer is a string starting with `/` succeeds
on a mapping document and keeps it a mapping; so does a skipped patch. -/
theorem applyOne_good (fields : Dict Json) (p : Patch)
    (hp : isOpKnown p.op = true →
      ∃ s, p.path = Json.str s ∧ startsWithSlash s = true) :
    ∃ fields2, applyOne (Json.obj fields) p = .ok (Json.obj fields2) := by
  by_cases hop : isOpKnown p.op = true
  · obtain ⟨s, hpath, hslash⟩ := hp hop
    cases hlast : (pathParts s).getLast? with
    | none =>
      cases hv : p.value with
      | obj vf => exact ⟨vf, by simp [applyOne, hop, hpath, hslash, hlast, hv]⟩
      | null => exact ⟨fields, by simp [applyOne, hop, hpath, hslash, hlast, hv]⟩
      | bool b => exact ⟨fields, by simp [applyOne, hop, hpath, hslash, hlast, hv]⟩
      | num n => exact ⟨fields, by simp [applyOne, hop, hpath, hslash, hlast, hv]⟩
      | str t => exact ⟨fields, by simp [applyOne, hop, hpath, hslash, hlast, hv]⟩
      | arr xs => exact ⟨fields, by simp [applyOne, hop, hpath, hslash, hlast, hv]⟩
    | some last =>
      obtain ⟨f2, hf2⟩ := ensureSetJ_obj_ok s last p.value ((pathParts s).dropLast) fields
      exact ⟨f2, by simp [applyOne, hop, hpath, hslash, hlast, hf2]⟩
  · have hop' : isOpKnown p.op = false := by
      cases hb : isOpKnown p.op
      · rfl
      · exact absurd hb hop
    exact ⟨fields, by simp [applyOne, hop']⟩

/-- A batch in which every handled patch carries a `/`-prefixed string
pointer runs to completion on a mapping document: `apply_patches`
returns normally with a mapping. -/
theorem apply_patches_good :
    ∀ (patches : List Patch) (fields : Dict Json),
      (∀ p ∈ patches, isOpKnown p.op = true →
        ∃ s, p.path = Json.str s ∧ startsWithSlash s = true) →
      ∃ fields2, apply_patches (Json.obj fields) patches = (Json.obj fields2, none) := by
  intro patches
  induction patches with
  | nil => exact fun fields _ => ⟨fields, rfl⟩
  | cons p ps ih =>
    intro fields hall
    obtain ⟨f2, h1⟩ := applyOne_good fields p (hall p (by simp))
    obtain ⟨f3, h2⟩ := ih f2 (fun q hq => hall q (by simp [hq]))
    exact ⟨f3, by simp [apply_patches, h1, h2]⟩

/-- One patch application is idempotent: re-applying a patch to its own
successful result reproduces that result. -/
theorem applyOne_idem (model d : Json) (p : Patch)
    (h : applyOne model p = .ok d) : applyOne d p = .ok d := by
  by_cases hop : isOpKnown p.op = true
  · cases hpath : p.path with
    | str s =>
      by_cases hsl : startsWithSlash s = true
      · rw [applyOne, hop, hpath] at h
        simp only [Bool.not_true, Bool.false_eq_true, if_false, hsl] at h
        cases hlast : (pathParts s).getLast? with
        | none =>
          rw [hlast] at h
          cases hv : p.value with
          | obj vf =>
            rw [hv] at h
            cases h
            simp [applyOne, hop, hpath, hsl, hlast, hv]
          | null => rw [hv] at h; cases h; simp [applyOne, hop, hpath, hsl, hlast, hv]
          | bool b => rw [hv] at h; cases h; simp [applyOne, hop, hpath, hsl, hlast, hv]
          | num n => rw [hv] at h; cases h; simp [applyOne, hop, hpath, hsl, hlast, hv]
          | str t => rw [hv] at h; cases h; simp [applyOne, hop, hpath, hsl, hlast, hv]
          | arr xs => rw [hv] at h; cases h; simp [applyOne, hop, hpath, hsl, hlast, hv]
        | some last =>
          rw [hlast] at h
          have := ensureSetJ_idem s last p.value ((pathParts s).dropLast) model d h
          simp [applyOne, hop, hpath, hsl, hlast, this]
      · have hsl' : startsWithSlash s = false := by
          cases hb : startsWithSlash s
          · rfl
          · exact absurd hb hsl
        rw [applyOne, hop, hpath] at h
        simp [hsl'] at h
    | null => rw [applyOne, hop, hpath] at h; cases h; simp [applyOne, hop, hpath]
    | bool b => rw [applyOne, hop, hpath] at h; cases h; simp [applyOne, hop, hpath]
    | num n => rw [applyOne, hop, hpath] at h; cases h; simp [applyOne, hop, hpath]
    | arr xs => rw [applyOne, hop, hpath] at h; cases h; simp [applyOne, hop, hpath]
    | obj fs => rw [applyOne, hop, hpath] at h; cases h; simp [applyOne, hop, hpath]
  · have hop' : isOpKnown p.op = false := by
      cases hb : isOpKnown p.op
      · rfl
      · exact absurd hb hop
    rw [applyOne, hop'] at h
    simp only [Bool.not_false, if_true] at h
    cases h
    simp [applyOne, hop']

/-- `get_model` never touches the outbound queue or the session id. -/
theorem get_model_queue (s : SessionState) (surfaceId : String) :
    (s.get_model surfaceId).2.queue = s.queue := by
  unfold SessionState.get_model
  cases dictGet? s.models surfaceId <;> rfl

/-- The drain loop never performs any registry operation: the hub it
returns is the hub it was given, whatever the disconnect oracle says. -/
theorem events_publisher_fst (hub : SessionHub) :
    ∀ (ticks : List Bool) (s : SessionState),
      (events_publisher hub s ticks).1 = hub := by
  intro ticks
  induction ticks with
  | nil => exact fun s => rfl
  | cons disc rest ih =>
    intro s
    by_cases hd : disc = true
    · simp [events_publisher, hd]
    · have hd' : disc = false := by
        cases disc
        · rfl
        · exact absurd rfl hd
      cases hq : s.queue with
      | nil => simp [events_publisher, hd', hq, ih]
      | cons e q => simp [events_publisher, hd', hq, ih]

/-- A concrete registry holding one session, used to exhibit the
behavior of the publisher on disconnect. -/
def hubC3 : SessionHub :=
  ⟨[("s1", ⟨"s1", [Event.sessionCreated "s1"], []⟩)]⟩

/-- The session object of `hubC3`, as the `/events` generator closes
over it. -/
def stC3 : SessionState :=
  ⟨"s1", [Event.sessionCreated "s1"], []⟩

/-- C2 (counterexample): an add patch whose pointer crosses an
intermediate key holding a non-mapping value does NOT fail with a
TraversalError — applying `{"op":"add","path":"/a/b","value":2}` to
`{"a":1}` returns normally (no raised error) and silently overwrites the
non-mapping at `a` with a fresh mapping. -/
theorem C2_traversal_counterexample :
    apply_patches (Json.obj [("a", Json.num 1)])
      [⟨Json.str "add", Json.str "/a/b", Json.num 2⟩] =
      (Json.obj [("a", Json.obj [("b", Json.num 2)])], none) := rfl

/-- C2 (amended): on a mapping document the traversal branch that would
raise for a non-mapping is unreachable — an intermediate key holding a
non-mapping value is replaced by a fresh empty mapping and the operation
succeeds; the only failure `apply_patches` can raise is the
bad-pointer `ValueError`, and that failure aborts the whole remaining
batch (the document keeps only the mutations of the earlier patches). -/
theorem C2_traversal_amended :
    (∀ (path last : String) (v : Json) (inter : List String) (m : Dict Json),
       ∃ m2, ensureSetJ path last v inter (Json.obj m) = .ok (Json.obj m2)) ∧
    (∀ (m : Dict Json) (seg : String) (w : Json) (rest : List String)
       (path last : String) (v : Json),
       dictGet? m seg = some w → Json.isObj w = false →
       ensureSetJ path last v (seg :: rest) (Json.obj m) =
         (ensureSetJ path last v rest (Json.obj [])).map
           (fun c2 => Json.obj (dictSet m seg c2))) ∧
    (∀ (model : Json) (p : Patch) (ps : List Patch) (e : String),
       applyOne model p = .error e →
       apply_patches model (p :: ps) = (model, some e)) := by
  refine ⟨fun path last v inter m => ensureSetJ_obj_ok path last v inter m, ?_, ?_⟩
  · intro m seg w rest path last v hget hobj
    have hchild : childDict m seg = [] := by
      cases w with
      | obj c => simp [Json.isObj] at hobj
      | null => simp [childDict, hget]
      | bool b => simp [childDict, hget]
      | num n => simp [childDict, hget]
      | str s => simp [childDict, hget]
      | arr xs => simp [childDict, hget]
    cases hres : ensureSetJ path last v rest (Json.obj []) with
    | ok c2 => simp [ensureSetJ, hchild, hres, Except.map]
    | error e => simp [ensureSetJ, hchild, hres, Except.map]
  · intro model p ps e h
    simp [apply_patches, h]

/-- C2 (witness): a concrete bad-pointer patch raises and aborts the
batch — the following well-formed patch is not applied. -/
theorem C2_traversal_amended_witness :
    apply_patches (Json.obj [])
      [⟨Json.str "add", Json.str "x", Json.null⟩,
       ⟨Json.str "add", Json.str "/a", Json.num 1⟩] =
      (Json.obj [], some "JSON pointer must start with '/': x") :=
  C2_traversal_amended.2.2 (Json.obj [])
    ⟨Json.str "add", Json.str "x", Json.null⟩
    [⟨Json.str "add", Json.str "/a", Json.num 1⟩]
    "JSON pointer must start with '/': x" rfl

/-- C3 (counterexample): with one registered session whose subscriber
disconnects immediately, the publisher stops draining (it emits nothing,
leaving the queued event in place) but the registry still returns the
session from `get` afterwards — it is not disposed, contradicting the
claim that every subsequent `get` fails with not-found. -/
theorem C3_disconnect_counterexample :
    events_publisher hubC3 stC3 [true] = (hubC3, stC3, []) ∧
    ((events_publisher hubC3 stC3 [true]).1.get "s1").isSome = true := by
  exact ⟨rfl, rfl⟩

/-- C3 (amended): when the publisher detects the subscriber disconnect it
stops draining — no further event is emitted and the session state is
left as it is — but it does not dispose the session: the drain loop never
performs a registry operation, so `get` answers exactly as before for
every session identifier. -/
theorem C3_disconnect_amended :
    ∀ (hub : SessionHub) (s : SessionState) (ticks : List Bool),
      events_publisher hub s (true :: ticks) = (hub, s, []) ∧
      (events_publisher hub s ticks).1 = hub ∧
      (∀ sid, ((events_publisher hub s ticks).1.get sid) = hub.get sid) := by
  intro hub s ticks
  refine ⟨by simp [events_publisher], events_publisher_fst hub ticks s, ?_⟩
  intro sid
  rw [events_publisher_fst hub ticks s]

/-- C4: when the resolved pointer has no nonempty segment (e.g. path
`/`), a handled patch with a mapping value replaces the whole document's
contents with that value, and one with a non-mapping value leaves the
document unchanged; in particular applying
`{"op":"replace","path":"/","value":{"x":1}}` to `{"y":2}` yields exactly
`{"x":1}`. -/
theorem C4_whole_replace :
    (∀ (fields : Dict Json) (op : Json) (s : String),
       isOpKnown op = true → startsWithSlash s = true → pathParts s = [] →
       (∀ vf : Dict Json,
          apply_patches (Json.obj fields) [⟨op, Json.str s, Json.obj vf⟩] =
            (Json.obj vf, none)) ∧
       (∀ v : Json, Json.isObj v = false →
          apply_patches (Json.obj fields) [⟨op, Json.str s, v⟩] =
            (Json.obj fields, none))) ∧
    apply_patches (Json.obj [("y", Json.num 2)])
      [⟨Json.str "replace", Json.str "/", Json.obj [("x", Json.num 1)]⟩] =
      (Json.obj [("x", Json.num 1)], none) := by
  refine ⟨?_, rfl⟩
  intro fields op s hop hslash hparts
  constructor
  · intro vf
    simp [apply_patches, applyOne, hop, hslash, hparts]
  · intro v hv
    cases v with
    | obj fs => simp [Json.isObj] at hv
    | null => simp [apply_patches, applyOne, hop, hslash, hparts]
    | bool b => simp [apply_patches, applyOne, hop, hslash, hparts]
    | num n => simp [apply_patches, applyOne, hop, hslash, hparts]
    | str t => simp [apply_patches, applyOne, hop, hslash, hparts]
    | arr xs => simp [apply_patches, applyOne, hop, hslash, hparts]

/-- C4 (witness): the whole-document replace at the concrete scenario
inputs, obtained from the general statement. -/
theorem C4_whole_replace_witness :
    apply_patches (Json.obj [("y", Json.num 2)])
      [⟨Json.str "replace", Json.str "/", Json.obj [("x", Json.num 1)]⟩] =
      (Json.obj [("x", Json.num 1)], none) :=
  (C4_whole_replace.1 [("y", Json.num 2)] (Json.str "replace") "/"
    rfl rfl rfl).1 [("x", Json.num 1)]

/-- C5: pointer traversal starting at the empty document creates exactly
the needed chain of intermediate singleton mappings; in particular
applying `{"op":"add","path":"/a/b/c","value":1}` to `{}` yields exactly
`{"a":{"b":{"c":1}}}`. -/
theorem C5_auto_create :
    (∀ (path last : String) (v : Json) (inter : List String),
       ensureSetJ path last v inter (Json.obj []) =
         .ok (nestSingleton inter last v)) ∧
    apply_patches (Json.obj [])
      [⟨Json.str "add", Json.str "/a/b/c", Json.num 1⟩] =
      (Json.obj [("a", Json.obj [("b", Json.obj [("c", Json.num 1)])])], none) :=
  ⟨fun path last v inter => ensureSetJ_empty_nest path last v inter, rfl⟩

/-- C6: applying a `replace` patch is idempotent — if one application of
the patch returns normally with document `d`, applying the same patch to
`d` returns `d` again. -/
theorem C6_replace_idempotent (fields : Dict Json) (p : Patch) (d : Json)
    (hop : p.op = Json.str "replace")
    (h : apply_patches (Json.obj fields) [p] = (d, none)) :
    apply_patches d [p] = (d, none) := by
  cases ha : applyOne (Json.obj fields) p with
  | error e =>
    rw [apply_patches, ha] at h
    cases h
  | ok m2 =>
    rw [apply_patches, ha] at h
    cases h
    simp [apply_patches, applyOne_idem (Json.obj fields) d p ha]

/-- C6 (witness): replacing `/a` with `1` once yields `{"a":1}`, and the
theorem applied there shows the second application returns it unchanged. -/
theorem C6_replace_idempotent_witness :
    apply_patches (Json.obj [("a", Json.num 1)])
      [⟨Json.str "replace", Json.str "/a", Json.num 1⟩] =
      (Json.obj [("a", Json.num 1)], none) :=
  C6_replace_idempotent []
    ⟨Json.str "replace", Json.str "/a", Json.num 1⟩
    (Json.obj [("a", Json.num 1)]) rfl rfl

/-- C7: a patch whose operation is neither `add` nor `replace` is
skipped without error, leaving the document unchanged; in particular
`{"op":"remove","path":"/a"}` leaves `{"a":1}` unchanged. -/
theorem C7_unknown_op_noop :
    (∀ (model : Json) (p : Patch), isOpKnown p.op = false →
       apply_patches model [p] = (model, none)) ∧
    apply_patches (Json.obj [("a", Json.num 1)])
      [⟨Json.str "remove", Json.str "/a", Json.null⟩] =
      (Json.obj [("a", Json.num 1)], none) := by
  refine ⟨?_, rfl⟩
  intro model p hop
  simp [apply_patches, applyOne, hop]

/-- C7 (witness): the general no-op statement applied to the concrete
`remove` patch of the claim. -/
theorem C7_unknown_op_noop_witness :
    apply_patches (Json.obj [("a", Json.num 1)])
      [⟨Json.str "remove", Json.str "/a", Json.null⟩] =
      (Json.obj [("a", Json.num 1)], none) :=
  C7_unknown_op_noop.1 (Json.obj [("a", Json.num 1)])
    ⟨Json.str "remove", Json.str "/a", Json.null⟩ rfl

/-- C10: on a mapping document, a batch in which every add/replace patch
carries a string pointer starting with `/` runs to completion — no error
is ever raised (the traversal-error branch is unreachable) — whereas a
single add/replace patch whose string pointer does not start with `/`
raises the bad-pointer `ValueError` and aborts the whole batch. -/
theorem C10_no_raise :
    (∀ (fields : Dict Json) (patches : List Patch),
       (∀ p ∈ patches, isOpKnown p.op = true →
          ∃ s, p.path = Json.str s ∧ startsWithSlash s = true) →
       ∃ fields2,
         apply_patches (Json.obj fields) patches = (Json.obj fields2, none)) ∧
    (∀ (fields : Dict Json) (op : Json) (s : String) (v : Json) (ps : List Patch),
       isOpKnown op = true → startsWithSlash s = false →
       apply_patches (Json.obj fields) (⟨op, Json.str s, v⟩ :: ps) =
         (Json.obj fields, some ("JSON pointer must start with '/': " ++ s))) := by
  refine ⟨fun fields patches hall => apply_patches_good patches fields hall, ?_⟩
  intro fields op s v ps hop hslash
  simp [apply_patches, applyOne, hop, hslash]

/-- C10 (witness): a two-patch compliant batch runs to completion, and a
bad-pointer patch aborts its batch before the following patch. -/
theorem C10_no_raise_witness :
    (∃ fields2,
       apply_patches (Json.obj [])
         [⟨Json.str "add", Json.str "/a", Json.num 1⟩,
          ⟨Json.str "replace", Json.str "/a", Json.num 2⟩] =
         (Json.obj fields2, none)) ∧
    apply_patches (Json.obj [])
      [⟨Json.str "add", Json.str "nope", Json.num 1⟩,
       ⟨Json.str "add", Json.str "/a", Json.num 2⟩] =
      (Json.obj [], some "JSON pointer must start with '/': nope") := by
  constructor
  · exact C10_no_raise.1 []
      [⟨Json.str "add", Json.str "/a", Json.num 1⟩,
       ⟨Json.str "replace", Json.str "/a", Json.num 2⟩]
      (by
        intro p hp hop
        have hor : p = ⟨Json.str "add", Json.str "/a", Json.num 1⟩ ∨
            p = ⟨Json.str "replace", Json.str "/a", Json.num 2⟩ := by
          simpa using hp
        rcases hor with h | h
        · subst h; exact ⟨"/a", rfl, rfl⟩
        · subst h; exact ⟨"/a", rfl, rfl⟩)
  · exact C10_no_raise.2 [] (Json.str "add") "nope" (Json.num 1)
      [⟨Json.str "add", Json.str "/a", Json.num 2⟩] rfl rfl

/-- The session of the C1 scenario: surface `"home"` holds
`{"status":{"loading":false}}` and the outbound queue is empty. -/
def stC1 : SessionState :=
  ⟨"s1", [],
   [("home", Json.obj [("status", Json.obj [("loading", Json.bool false)])])]⟩

/-- The registry of the C1 scenario, holding exactly `stC1`. -/
def hubC1 : SessionHub := ⟨[("s1", stC1)]⟩

/-- The patch of the C1 scenario:
`{"op":"replace","path":"/status/loading","value":true}`. -/
def patchC1 : Patch :=
  ⟨Json.str "replace", Json.str "/status/loading", Json.bool true⟩

/-- C1: for every existing session, `push_update_and_apply` stores the
patched surface document and appends exactly one `dataModelUpdate` event
carrying the same patch list to that session's outbound queue; at the
scenario inputs the stored document reads `{"status":{"loading":true}}`
and the queue gained exactly that one event. -/
theorem C1_push_update_and_apply :
    (∀ (hub : SessionHub) (sid surfaceId : String) (patches : List Patch)
       (s : SessionState) (m2 : Json),
       hub.get sid = some s →
       apply_patches (s.get_model surfaceId).1 patches = (m2, none) →
       ∃ s2 : SessionState,
         hub.push_update_and_apply sid surfaceId patches =
           ({ sessions := dictSet hub.sessions sid s2 }, none) ∧
         s2.queue = s.queue ++ [Event.dataModelUpdate surfaceId patches] ∧
         dictGet? s2.models surfaceId = some m2 ∧
         (hub.push_update_and_apply sid surfaceId patches).1.get sid = some s2) ∧
    hubC1.push_update_and_apply "s1" "home" [patchC1] =
      (⟨[("s1", ⟨"s1", [Event.dataModelUpdate "home" [patchC1]],
          [("home", Json.obj [("status", Json.obj [("loading", Json.bool true)])])]⟩)]⟩,
       none) := by
  refine ⟨?_, rfl⟩
  intro hub sid surfaceId patches s m2 hget happ
  refine ⟨{ (s.get_model surfaceId).2 with
      models := dictSet (s.get_model surfaceId).2.models surfaceId m2,
      queue := (s.get_model surfaceId).2.queue ++
        [Event.dataModelUpdate surfaceId patches] }, ?_, ?_, ?_, ?_⟩
  · simp only [SessionHub.push_update_and_apply, hget, happ]
  · simp [get_model_queue]
  · exact dictGet?_dictSet_self _ _ _
  · have hget2 : dictGet? hub.sessions sid = some s := hget
    simp only [SessionHub.push_update_and_apply, SessionHub.get, hget2, happ]
    exact dictGet?_dictSet_self _ _ _

/-- C1 (witness): the general statement applied to the concrete scenario
session and patch. -/
theorem C1_push_update_and_apply_witness :
    ∃ s2 : SessionState,
      hubC1.push_update_and_apply "s1" "home" [patchC1] =
        ({ sessions := dictSet hubC1.sessions "s1" s2 }, none) ∧
      s2.queue = stC1.queue ++ [Event.dataModelUpdate "home" [patchC1]] ∧
      dictGet? s2.models "home" =
        some (Json.obj [("status", Json.obj [("loading", Json.bool true)])]) ∧
      (hubC1.push_update_and_apply "s1" "home" [patchC1]).1.get "s1" = some s2 :=
  C1_push_update_and_apply.1 hubC1 "s1" "home" [patchC1] stC1
    (Json.obj [("status", Json.obj [("loading", Json.bool true)])]) rfl rfl

/-- C8 (counterexample): a stream that ends without any matching message
makes the call fail with the message
`"SSE stream ended without response"`, which is not the claimed message
`"stream ended without response"`. -/
theorem C8_stream_end_counterexample :
    wait_for_response (fun _ => none) "abc"
      (parse_sse_events ["event: other", "data: x", ""]) =
      CallOutcome.raised "SSE stream ended without response" ∧
    "SSE stream ended without response" ≠ "stream ended without response" :=
  ⟨rfl, by decide⟩

/-- C8 (amended): for every finite frame sequence in which every
`message` frame's decodable payload is a mapping whose `id` field does
not match the call's identifier (frames with other event names,
non-matching identifiers, or undecodable payloads are skipped, never
returned), the call fails once the stream ends with
`RuntimeError("SSE stream ended without response")`. -/
theorem C8_stream_end_amended (decode : String → Option Json) (callId : String) :
    ∀ frames : List (String × String),
      (∀ ev d, (ev, d) ∈ frames → ev = "message" →
        ∀ j, decode d = some j →
          ∃ flds, j = Json.obj flds ∧ idMatches flds callId = false) →
      wait_for_response decode callId frames =
        CallOutcome.raised "SSE stream ended without response" := by
  intro frames
  induction frames with
  | nil => exact fun _ => rfl
  | cons f rest ih =>
    obtain ⟨ev, d⟩ := f
    intro hall
    have htail : ∀ ev2 d2, (ev2, d2) ∈ rest → ev2 = "message" →
        ∀ j, decode d2 = some j →
          ∃ flds, j = Json.obj flds ∧ idMatches flds callId = false :=
      fun ev2 d2 hmem => hall ev2 d2 (List.mem_cons_of_mem _ hmem)
    by_cases hev : ev = "message"
    · subst hev
      cases hdec : decode d with
      | none => simp [wait_for_response, hdec, ih htail]
      | some j =>
        obtain ⟨flds, hj, hid⟩ :=
          hall "message" d (List.mem_cons_self _ _) rfl j hdec
        subst hj
        simp [wait_for_response, hdec, hid, ih htail]
    · have hne : (ev == "message") = false := by
        simpa [beq_iff_eq] using hev
      simp [wait_for_response, hne, ih htail]

/-- C8 (witness): the amended statement at a concrete stream whose
frames never decode. -/
theorem C8_stream_end_amended_witness :
    wait_for_response (fun _ => none) "abc" [("message", "x"), ("ping", "y")] =
      CallOutcome.raised "SSE stream ended without response" :=
  C8_stream_end_amended (fun _ => none) "abc" [("message", "x"), ("ping", "y")]
    (fun _ _ _ _ _ hj => Option.noConfusion hj)

/-- C9: on a response body without an `error` key, `message_send`
returns the payload at `result.data` when it is present and non-empty
(truthy), and returns an empty mapping — without raising — when `result`
is absent or when `result.data` is absent or empty (falsy). -/
theorem C9_message_send_unwrap :
    (∀ (body rf : Dict Json) (d : Json),
       dictGet? body "error" = none →
       dictGet? body "result" = some (Json.obj rf) →
       dictGet? rf "data" = some d → pyTruthy d = true →
       message_send_unwrap body = .ok d) ∧
    (∀ body : Dict Json,
       dictGet? body "error" = none →
       dictGet? body "result" = none →
       message_send_unwrap body = .ok (Json.obj [])) ∧
    (∀ (body rf : Dict Json),
       dictGet? body "error" = none →
       dictGet? body "result" = some (Json.obj rf) →
       (dictGet? rf "data" = none ∨
        ∃ d, dictGet? rf "data" = some d ∧ pyTruthy d = false) →
       message_send_unwrap body = .ok (Json.obj [])) := by
  refine ⟨?_, ?_, ?_⟩
  · intro body rf d herr hres hdata htru
    cases rf with
    | nil => simp [dictGet?] at hdata
    | cons kv rest =>
      have htr : pyTruthy (Json.obj (kv :: rest)) = true := by simp [pyTruthy]
      simp [message_send_unwrap, herr, hres, htr, hdata, htru]
  · intro body herr hres
    simp [message_send_unwrap, herr, hres, pyTruthy, dictGet?]
  · intro body rf herr hres hd
    cases rf with
    | nil => simp [message_send_unwrap, herr, hres, pyTruthy, dictGet?]
    | cons kv rest =>
      have htr : pyTruthy (Json.obj (kv :: rest)) = true := by simp [pyTruthy]
      rcases hd with hd | ⟨d, hd, hfalse⟩
      · have hnull : pyTruthy Json.null = false := rfl
        simp [message_send_unwrap, herr, hres, htr, hd, hnull]
      · simp [message_send_unwrap, herr, hres, htr, hd, hfalse]

/-- C9 (witness): the truthy-payload clause at a concrete well-formed
response body. -/
theorem C9_message_send_unwrap_witness :
    message_send_unwrap
      [("jsonrpc", Json.str "2.0"),
       ("result", Json.obj [("status", Json.str "ok"),
          ("data", Json.obj [("k", Json.num 3)])])] =
      A2AOutcome.ok (Json.obj [("k", Json.num 3)]) :=
  C9_message_send_unwrap.1
    [("jsonrpc", Json.str "2.0"),
     ("result", Json.obj [("status", Json.str "ok"),
        ("data", Json.obj [("k", Json.num 3)])])]
    [("status", Json.str "ok"), ("data", Json.obj [("k", Json.num 3)])]
    (Json.obj [("k", Json.num 3)]) rfl rfl rfl rfl

end A2AI
